import Mathlib

/-!
Shallow embedding of the `C++/logger` utility: the `LogManager` category
registry (backed by a `std::map<ELogCategory, ELogCategoryState>`), the
`Singleton` lifecycle it inherits, the `Color_To_Ansi` translation table and
the six `Debug_Log` overloads of `debug_logger_component.h`.

Modelling choices, all taken from the source:
* `ELogCategory` is an `int`-backed C++ enum class; category values are
  embedded as `Int`, with named constants for the enumerators.  The sentinel
  `AutoCount` equals 6.
* `EPrintColor` is an `unsigned char`-backed enum class; color values are
  embedded as `Nat`, with named constants 0..15 for the enumerators.
* `std::map` is embedded as an association list.  `operator[]` (used by the
  constructor, `EnableCategory` and `DisableCategory`) inserts-or-overwrites;
  `.at` (used by the queries) returns the mapped value or throws
  `std::out_of_range` when the key is absent, embedded as `Option`:
  `none` is the throw.
* Each `Debug_Log` overload writes a sequence of characters to `std::cout`;
  the embedding returns the written text as an `Option String`, where `none`
  models the `std::map::at` throw escaping a `noexcept` function
  (`std::terminate`, no defined output) and `some s` means exactly `s` was
  written.  The variadic arguments enter as the list of their textual
  stream representations, printed left to right by the fold expression.
* `std::ctime`'s output (wall-clock time, ends with a newline) is not
  computable in the embedding; the time-taking overloads receive it as an
  explicit `now : String` parameter.
-/

/-- ANSI reset sequence `"\033[m"` (`UNIX_COLOR_END_TAG` in
`project_definitions.h`). -/
def UNIX_COLOR_END_TAG : String := "\x1b[m"

/-- `ELogCategoryState` from `project_definitions.h`: `Enabled`, `Disabled`
and the sentinel `AutoCount`. -/
inductive ELogCategoryState : Type where
  | Enabled : ELogCategoryState
  | Disabled : ELogCategoryState
  | AutoCount : ELogCategoryState
deriving DecidableEq, Repr

namespace ELogCategory

/-- `ELogCategory::Default` -/
def Default : Int := 0

/-- `ELogCategory::Error` -/
def Error : Int := 1

/-- `ELogCategory::Core` -/
def Core : Int := 2

/-- `ELogCategory::Editor` -/
def Editor : Int := 3

/-- `ELogCategory::Component` -/
def Component : Int := 4

/-- `ELogCategory::Threads` -/
def Threads : Int := 5

/-- `ELogCategory::AutoCount` — sentinel, counts the real categories. -/
def AutoCount : Int := 6

end ELogCategory

namespace EPrintColor

/-- `EPrintColor::Red` -/
def Red : Nat := 0

/-- `EPrintColor::Green` -/
def Green : Nat := 1

/-- `EPrintColor::Blue` -/
def Blue : Nat := 2

/-- `EPrintColor::White` -/
def White : Nat := 3

/-- `EPrintColor::Black` -/
def Black : Nat := 4

/-- `EPrintColor::Magenta` -/
def Magenta : Nat := 5

/-- `EPrintColor::Cyan` -/
def Cyan : Nat := 6

/-- `EPrintColor::Yellow` -/
def Yellow : Nat := 7

/-- `EPrintColor::Gray` -/
def Gray : Nat := 8

/-- `EPrintColor::LightRed` -/
def LightRed : Nat := 9

/-- `EPrintColor::LightGreen` -/
def LightGreen : Nat := 10

/-- `EPrintColor::LightBlue` -/
def LightBlue : Nat := 11

/-- `EPrintColor::LightWhite` -/
def LightWhite : Nat := 12

/-- `EPrintColor::LightMagenta` -/
def LightMagenta : Nat := 13

/-- `EPrintColor::LightCyan` -/
def LightCyan : Nat := 14

/-- `EPrintColor::LightYellow` -/
def LightYellow : Nat := 15

end EPrintColor

/-- `Color_To_Ansi` from `project_definitions.h`: the 16-way switch on the
color enumerator, with the `default:` branch returning White's sequence. -/
def Color_To_Ansi (color : Nat) : String :=
  match color with
  | 0 => "\x1b[1;31m"
  | 1 => "\x1b[1;32m"
  | 2 => "\x1b[1;34m"
  | 3 => "\x1b[1;37m"
  | 4 => "\x1b[1;30m"
  | 5 => "\x1b[1;35m"
  | 6 => "\x1b[1;36m"
  | 7 => "\x1b[1;33m"
  | 8 => "\x1b[1;90m"
  | 9 => "\x1b[1;91m"
  | 10 => "\x1b[1;92m"
  | 11 => "\x1b[1;94m"
  | 12 => "\x1b[1;97m"
  | 13 => "\x1b[1;95m"
  | 14 => "\x1b[1;96m"
  | 15 => "\x1b[1;94m"
  | _ => "\x1b[1;37m"

/-- `std::map<ELogCategory, ELogCategoryState>` embedded as an association
list with `Int` keys. -/
abbrev CategoryMap : Type := List (Int × ELogCategoryState)

/-- `map[key] = value` on `std::map`: overwrite the entry for `key` when it
exists, insert a new one otherwise. -/
def mapInsert : CategoryMap → Int → ELogCategoryState → CategoryMap
  | [], k, v => [(k, v)]
  | (k', v') :: rest, k, v =>
      if k' = k then (k, v) :: rest else (k', v') :: mapInsert rest k v

/-- `map.at(key)` on `std::map`: the mapped value, or `none` for the
`std::out_of_range` throw when the key is absent. -/
def mapFind : CategoryMap → Int → Option ELogCategoryState
  | [], _ => none
  | (k', v') :: rest, k => if k' = k then some v' else mapFind rest k

/-- The `LogManager` registry of `log_categories.h`: its single data member
`logCategoryStates`. -/
structure LogManager : Type where
  logCategoryStates : CategoryMap
deriving DecidableEq

/-- The `LogManager()` constructor: for `i = 0` up to
`ELogCategory::AutoCount - 1`, set `logCategoryStates[i] = Enabled`. -/
def LogManager.init : LogManager :=
  ⟨(List.range 6).foldl
      (fun m i => mapInsert m (Int.ofNat i) ELogCategoryState.Enabled) []⟩

/-- `LogManager::EnableCategory`. -/
def EnableCategory (m : LogManager) (category : Int) : LogManager :=
  ⟨mapInsert m.logCategoryStates category ELogCategoryState.Enabled⟩

/-- `LogManager::DisableCategory`. -/
def DisableCategory (m : LogManager) (category : Int) : LogManager :=
  ⟨mapInsert m.logCategoryStates category ELogCategoryState.Disabled⟩

/-- `LogManager::IsCategoryEnabled`: `logCategoryStates.at(category) ==
Enabled`; `none` models the `std::out_of_range` throw of `.at`. -/
def IsCategoryEnabled (m : LogManager) (category : Int) : Option Bool :=
  (mapFind m.logCategoryStates category).map
    (fun st => st = ELogCategoryState.Enabled)

/-- `LogManager::IsCategoryDisabled`: `logCategoryStates.at(category) ==
Disabled`; `none` models the `std::out_of_range` throw of `.at`. -/
def IsCategoryDisabled (m : LogManager) (category : Int) : Option Bool :=
  (mapFind m.logCategoryStates category).map
    (fun st => st = ELogCategoryState.Disabled)

/-- The `Singleton<LogManager>` static instance pointer: `none` is the null
pointer. -/
abbrev SingletonState : Type := Option LogManager

/-- `Singleton<LogManager>::GetInstance`: construct a fresh `LogManager` when
the pointer is null, otherwise return the existing instance.  Returns the
instance together with the updated static pointer. -/
def Singleton.GetInstance : SingletonState → LogManager × SingletonState
  | none => (LogManager.init, some LogManager.init)
  | some m => (m, some m)

/-- `Singleton<LogManager>::DestroyInstance`: delete the instance (if any)
and null the pointer. -/
def Singleton.DestroyInstance : SingletonState → SingletonState :=
  fun _ => none

/-- The fold expression `([&] \x7b std::cout << args; \x7d (), ...)`: each
argument's stream representation is appended to the output left to right. -/
def printArgs (args : List String) : String :=
  args.foldl (fun acc a => acc ++ a) ""

/-- `Debug_Log(args...)`: gate on the Default category, then print
`">>> "`, the arguments and `std::endl`. -/
def Debug_Log_args (m : LogManager) (args : List String) : Option String :=
  match IsCategoryDisabled m ELogCategory.Default with
  | none => none
  | some true => some ""
  | some false => some (">>> " ++ printArgs args ++ "\n")

/-- `Debug_Log(category, args...)`: gate on the given category, then print
`">>> "`, the arguments and `std::endl`. -/
def Debug_Log_cat (m : LogManager) (category : Int) (args : List String) :
    Option String :=
  match IsCategoryDisabled m category with
  | none => none
  | some true => some ""
  | some false => some (">>> " ++ printArgs args ++ "\n")

/-- `Debug_Log(color, args...)`: gate on the Default category, then print
`">>> "`, the color code, the arguments, `UNIX_COLOR_END_TAG` and
`std::endl`. -/
def Debug_Log_color (m : LogManager) (color : Nat) (args : List String) :
    Option String :=
  match IsCategoryDisabled m ELogCategory.Default with
  | none => none
  | some true => some ""
  | some false =>
      some (">>> " ++ Color_To_Ansi color ++ printArgs args ++
        UNIX_COLOR_END_TAG ++ "\n")

/-- `Debug_Log(category, color, args...)`: gate on the given category, then
print `">>> "`, the color code, the arguments, `UNIX_COLOR_END_TAG` and
`std::endl`. -/
def Debug_Log_cat_color (m : LogManager) (category : Int) (color : Nat)
    (args : List String) : Option String :=
  match IsCategoryDisabled m category with
  | none => none
  | some true => some ""
  | some false =>
      some (">>> " ++ Color_To_Ansi color ++ printArgs args ++
        UNIX_COLOR_END_TAG ++ "\n")

/-- `Debug_Log(color, bShowTime, args...)`: gate on the Default category;
when `bShowTime`, first print `std::ctime` of the current time (passed in as
`now`), then print the colored message line. -/
def Debug_Log_color_time (m : LogManager) (color : Nat) (bShowTime : Bool)
    (now : String) (args : List String) : Option String :=
  match IsCategoryDisabled m ELogCategory.Default with
  | none => none
  | some true => some ""
  | some false =>
      some ((if bShowTime then now else "") ++ ">>> " ++
        Color_To_Ansi color ++ printArgs args ++ UNIX_COLOR_END_TAG ++ "\n")

/-- `Debug_Log(category, color, bShowTime, args...)`: gate on the given
category; when `bShowTime`, first print `std::ctime` of the current time
(passed in as `now`), then print the colored message line. -/
def Debug_Log_cat_color_time (m : LogManager) (category : Int) (color : Nat)
    (bShowTime : Bool) (now : String) (args : List String) : Option String :=
  match IsCategoryDisabled m category with
  | none => none
  | some true => some ""
  | some false =>
      some ((if bShowTime then now else "") ++ ">>> " ++
        Color_To_Ansi color ++ printArgs args ++ UNIX_COLOR_END_TAG ++ "\n")

/-- The ASCII escape character `\033`, first byte of every ANSI sequence. -/
def escChar : Char := Char.ofNat 27

/-- Whether a string contains the escape character (hence any ANSI code). -/
def hasEsc (s : String) : Bool := s.data.contains escChar

/-- Registry states reachable from the constructor by `EnableCategory` and
`DisableCategory` calls. -/
inductive Reachable : LogManager → Prop where
  | init : Reachable LogManager.init
  | enable (m : LogManager) (c : Int) : Reachable m → Reachable (EnableCategory m c)
  | disable (m : LogManager) (c : Int) : Reachable m → Reachable (DisableCategory m c)

theorem mapFind_mapInsert_self (l : CategoryMap) (k : Int)
    (v : ELogCategoryState) : mapFind (mapInsert l k v) k = some v := by
  induction l with
  | nil => simp [mapInsert, mapFind]
  | cons p rest ih =>
      obtain ⟨k', v'⟩ := p
      by_cases h : k' = k
      · simp [mapInsert, mapFind, h]
      · simp [mapInsert, mapFind, h, ih]

theorem mapInsert_idem (l : CategoryMap) (k : Int) (v : ELogCategoryState) :
    mapInsert (mapInsert l k v) k v = mapInsert l k v := by
  induction l with
  | nil => simp [mapInsert]
  | cons p rest ih =>
      obtain ⟨k', v'⟩ := p
      by_cases h : k' = k
      · simp [mapInsert, h]
      · simp [mapInsert, h, ih]

theorem mapFind_mapInsert_cases (l : CategoryMap) (k c : Int)
    (v w : ELogCategoryState) (h : mapFind (mapInsert l k v) c = some w) :
    w = v ∨ mapFind l c = some w := by
  induction l with
  | nil =>
      simp only [mapInsert, mapFind] at h
      by_cases hk : k = c
      · simp [hk] at h
        exact Or.inl h.symm
      · simp [hk] at h
  | cons p rest ih =>
      obtain ⟨k', v'⟩ := p
      by_cases hk : k' = k
      · subst hk
        simp only [mapInsert, if_pos rfl, mapFind] at h
        by_cases hc : k' = c
        · simp [hc] at h
          exact Or.inl h.symm
        · simp [hc] at h
          simp [mapFind, hc, h]
      · simp only [mapInsert, if_neg hk, mapFind] at h
        by_cases hc : k' = c
        · simp [hc] at h
          simp [mapFind, hc, h]
        · simp only [if_neg hc] at h
          rcases ih h with h' | h'
          · exact Or.inl h'
          · exact Or.inr (by simp [mapFind, hc, h'])

theorem mapFind_eq_none_of_forall_ne (l : CategoryMap) (c : Int)
    (h : ∀ p ∈ l, p.1 ≠ c) : mapFind l c = none := by
  induction l with
  | nil => rfl
  | cons p rest ih =>
      obtain ⟨k', v'⟩ := p
      have hk : k' ≠ c := h (k', v') (List.mem_cons_self _ _)
      simp only [mapFind, if_neg hk]
      exact ih (fun q hq => h q (List.mem_cons_of_mem _ hq))

/-- Every value stored in a reachable registry state is `Enabled` or
`Disabled` (never the sentinel `AutoCount`). -/
theorem reachable_values (m : LogManager) (h : Reachable m) (c : Int)
    (v : ELogCategoryState) (hf : mapFind m.logCategoryStates c = some v) :
    v = ELogCategoryState.Enabled ∨ v = ELogCategoryState.Disabled := by
  induction h generalizing c v with
  | init =>
      have hmem : (c, v) ∈ LogManager.init.logCategoryStates := by
        revert hf
        show mapFind LogManager.init.logCategoryStates c = some v →
          (c, v) ∈ LogManager.init.logCategoryStates
        generalize LogManager.init.logCategoryStates = l
        induction l with
        | nil => intro hx; exact absurd hx (by simp [mapFind])
        | cons p rest ih =>
            obtain ⟨k', v'⟩ := p
            intro hx
            by_cases hk : k' = c
            · subst hk
              simp [mapFind] at hx
              subst hx
              exact List.mem_cons_self _ _
            · simp [mapFind, hk] at hx
              exact List.mem_cons_of_mem _ (ih hx)
      have : v = ELogCategoryState.Enabled := by
        have hl : LogManager.init.logCategoryStates =
            [(0, ELogCategoryState.Enabled), (1, ELogCategoryState.Enabled),
             (2, ELogCategoryState.Enabled), (3, ELogCategoryState.Enabled),
             (4, ELogCategoryState.Enabled), (5, ELogCategoryState.Enabled)] := by
          decide
        rw [hl] at hmem
        simp at hmem
        tauto
      exact Or.inl this
  | enable m' c' _ ih =>
      rcases mapFind_mapInsert_cases _ _ _ _ _ hf with h' | h'
      · exact Or.inl h'
      · exact ih c v h'
  | disable m' c' _ ih =>
      rcases mapFind_mapInsert_cases _ _ _ _ _ hf with h' | h'
      · exact Or.inr h'
      · exact ih c v h'

theorem contains_esc_append (da db : List Char) :
    (da ++ db).contains escChar = (da.contains escChar || db.contains escChar) := by
  induction da with
  | nil => simp
  | cons a as ih => simp [List.contains_cons, ih, Bool.or_assoc]

theorem hasEsc_append (a b : String) :
    hasEsc (a ++ b) = (hasEsc a || hasEsc b) := by
  cases a with
  | mk da =>
      cases b with
      | mk db =>
          show (da ++ db).contains escChar =
            (da.contains escChar || db.contains escChar)
          exact contains_esc_append da db

theorem hasEsc_foldl (args : List String) (acc : String)
    (hargs : ∀ a ∈ args, hasEsc a = false) (hacc : hasEsc acc = false) :
    hasEsc (args.foldl (fun x a => x ++ a) acc) = false := by
  induction args generalizing acc with
  | nil => exact hacc
  | cons a as ih =>
      refine ih _ (fun b hb => hargs b (List.mem_cons_of_mem _ hb)) ?_
      rw [hasEsc_append, hacc, hargs a (List.mem_cons_self _ _)]
      rfl

theorem hasEsc_printArgs (args : List String)
    (hargs : ∀ a ∈ args, hasEsc a = false) :
    hasEsc (printArgs args) = false :=
  hasEsc_foldl args "" hargs rfl

/-- **C2.** Immediately after the registry is constructed, every real
category (`Default`..`Threads`, the integer values `0 ≤ c < 6`) is reported
enabled and not disabled, and the sentinel `AutoCount` (value 6) has no
entry in the state map. -/
theorem logManager_init_all_enabled :
    (∀ c : Int, 0 ≤ c → c < ELogCategory.AutoCount →
      IsCategoryEnabled LogManager.init c = some true ∧
      IsCategoryDisabled LogManager.init c = some false) ∧
    mapFind LogManager.init.logCategoryStates ELogCategory.AutoCount = none := by
  constructor
  · intro c h0 h6
    have h6' : c < 6 := h6
    interval_cases c <;> exact ⟨by decide, by decide⟩
  · decide

/-- Witness for C2 at the concrete category `Core` (value 2). -/
theorem logManager_init_all_enabled_witness :
    IsCategoryEnabled LogManager.init ELogCategory.Core = some true ∧
    IsCategoryDisabled LogManager.init ELogCategory.Core = some false :=
  logManager_init_all_enabled.1 ELogCategory.Core (by decide) (by decide)

/-- **C3.** From any registry state, `DisableCategory c` then
`IsCategoryDisabled c` yields `true`, `EnableCategory c` then
`IsCategoryEnabled c` yields `true`, and both operations are idempotent on
the state. -/
theorem category_toggle_idempotent (m : LogManager) (c : Int)
    (_h0 : 0 ≤ c) (_h6 : c < ELogCategory.AutoCount) :
    IsCategoryDisabled (DisableCategory m c) c = some true ∧
    IsCategoryEnabled (EnableCategory m c) c = some true ∧
    EnableCategory (EnableCategory m c) c = EnableCategory m c ∧
    DisableCategory (DisableCategory m c) c = DisableCategory m c := by
  refine ⟨?_, ?_, ?_, ?_⟩
  · simp [IsCategoryDisabled, DisableCategory, mapFind_mapInsert_self]
  · simp [IsCategoryEnabled, EnableCategory, mapFind_mapInsert_self]
  · simp [EnableCategory, mapInsert_idem]
  · simp [DisableCategory, mapInsert_idem]

/-- Witness for C3 at the fresh registry and category `Editor` (value 3). -/
theorem category_toggle_idempotent_witness :
    IsCategoryDisabled (DisableCategory LogManager.init ELogCategory.Editor)
      ELogCategory.Editor = some true ∧
    IsCategoryEnabled (EnableCategory LogManager.init ELogCategory.Editor)
      ELogCategory.Editor = some true ∧
    EnableCategory (EnableCategory LogManager.init ELogCategory.Editor)
      ELogCategory.Editor = EnableCategory LogManager.init ELogCategory.Editor ∧
    DisableCategory (DisableCategory LogManager.init ELogCategory.Editor)
      ELogCategory.Editor = DisableCategory LogManager.init ELogCategory.Editor :=
  category_toggle_idempotent LogManager.init ELogCategory.Editor
    (by decide) (by decide)

/-- **C7.** `Color_To_Ansi` is total: each of the 16 enumerated colors maps
to its documented fixed escape sequence, `LightYellow` maps to the same
sequence as `LightBlue`, and every numeric value outside the enumeration
maps to the White sequence. -/
theorem colorToAnsi_total :
    (Color_To_Ansi EPrintColor.Red = "\x1b[1;31m" ∧
     Color_To_Ansi EPrintColor.Green = "\x1b[1;32m" ∧
     Color_To_Ansi EPrintColor.Blue = "\x1b[1;34m" ∧
     Color_To_Ansi EPrintColor.White = "\x1b[1;37m" ∧
     Color_To_Ansi EPrintColor.Black = "\x1b[1;30m" ∧
     Color_To_Ansi EPrintColor.Magenta = "\x1b[1;35m" ∧
     Color_To_Ansi EPrintColor.Cyan = "\x1b[1;36m" ∧
     Color_To_Ansi EPrintColor.Yellow = "\x1b[1;33m" ∧
     Color_To_Ansi EPrintColor.Gray = "\x1b[1;90m" ∧
     Color_To_Ansi EPrintColor.LightRed = "\x1b[1;91m" ∧
     Color_To_Ansi EPrintColor.LightGreen = "\x1b[1;92m" ∧
     Color_To_Ansi EPrintColor.LightBlue = "\x1b[1;94m" ∧
     Color_To_Ansi EPrintColor.LightWhite = "\x1b[1;97m" ∧
     Color_To_Ansi EPrintColor.LightMagenta = "\x1b[1;95m" ∧
     Color_To_Ansi EPrintColor.LightCyan = "\x1b[1;96m" ∧
     Color_To_Ansi EPrintColor.LightYellow = "\x1b[1;94m") ∧
    Color_To_Ansi EPrintColor.LightYellow = Color_To_Ansi EPrintColor.LightBlue ∧
    ∀ n : Nat, 16 ≤ n → Color_To_Ansi n = "\x1b[1;37m" := by
  refine ⟨by decide, by decide, ?_⟩
  intro n hn
  obtain ⟨k, rfl⟩ : ∃ k, n = k + 16 := ⟨n - 16, by omega⟩
  rfl

/-- Witness for C7 at the out-of-enumeration value 200. -/
theorem colorToAnsi_total_witness : Color_To_Ansi 200 = "\x1b[1;37m" :=
  colorToAnsi_total.2.2 200 (by decide)

/-- **C1.** Every `Debug_Log` variant resolves an effective category (the
explicit argument, or `Default` when the variant takes none); when that
effective category — and it alone — is disabled in the registry the call
writes nothing and returns, whatever the color and timestamp options are.
The bare, color and color+time variants are gated on `Default` only; the
category-taking variants are gated on their category argument only, with no
condition on `Default`'s state. -/
theorem debugLog_disabled_suppresses (m : LogManager) (c : Int) (color : Nat)
    (bShowTime : Bool) (now : String) (args : List String) :
    (IsCategoryDisabled m ELogCategory.Default = some true →
      Debug_Log_args m args = some "" ∧
      Debug_Log_color m color args = some "" ∧
      Debug_Log_color_time m color bShowTime now args = some "") ∧
    (IsCategoryDisabled m c = some true →
      Debug_Log_cat m c args = some "" ∧
      Debug_Log_cat_color m c color args = some "" ∧
      Debug_Log_cat_color_time m c color bShowTime now args = some "") := by
  constructor
  · intro h0
    simp [Debug_Log_args, Debug_Log_color, Debug_Log_color_time, h0]
  · intro hc
    simp [Debug_Log_cat, Debug_Log_cat_color, Debug_Log_cat_color_time, hc]

/-- Witness for C1: `Error` disabled while `Default` stays enabled — the
three category-taking variants are silent on `Error`; and with `Default`
disabled the three `Default`-gated variants are silent. -/
theorem debugLog_disabled_suppresses_witness :
    (Debug_Log_cat (DisableCategory LogManager.init ELogCategory.Error)
      ELogCategory.Error ["x"] = some "" ∧
     Debug_Log_cat_color (DisableCategory LogManager.init ELogCategory.Error)
      ELogCategory.Error EPrintColor.Red ["x"] = some "" ∧
     Debug_Log_cat_color_time
      (DisableCategory LogManager.init ELogCategory.Error) ELogCategory.Error
      EPrintColor.Red true "Mon Jan  1 00:00:00 2026\n" ["x"] = some "") ∧
    (Debug_Log_args (DisableCategory LogManager.init ELogCategory.Default)
      ["x"] = some "" ∧
     Debug_Log_color (DisableCategory LogManager.init ELogCategory.Default)
      EPrintColor.Red ["x"] = some "" ∧
     Debug_Log_color_time
      (DisableCategory LogManager.init ELogCategory.Default) EPrintColor.Red
      true "Mon Jan  1 00:00:00 2026\n" ["x"] = some "") :=
  And.intro
    ((debugLog_disabled_suppresses
      (DisableCategory LogManager.init ELogCategory.Error) ELogCategory.Error
      EPrintColor.Red true "Mon Jan  1 00:00:00 2026\n" ["x"]).2 (by decide))
    ((debugLog_disabled_suppresses
      (DisableCategory LogManager.init ELogCategory.Default)
      ELogCategory.Error EPrintColor.Red true "Mon Jan  1 00:00:00 2026\n"
      ["x"]).1 (by decide))

/-- **C4.** For the colorless variants (bare and category-only), whenever
the variant's own effective category is enabled (`Default` for the bare
variant, the argument `c` for the category-only one, with no condition on
the other), the output is exactly `">>> "`, the argument texts concatenated
in call order with no separators, and one newline; and when no argument
text contains the escape character, neither does the output. -/
theorem debugLog_plain_format (m : LogManager) (c : Int) (args : List String)
    (hargs : ∀ a ∈ args, hasEsc a = false) :
    (IsCategoryDisabled m ELogCategory.Default = some false →
      Debug_Log_args m args = some (">>> " ++ printArgs args ++ "\n")) ∧
    (IsCategoryDisabled m c = some false →
      Debug_Log_cat m c args = some (">>> " ++ printArgs args ++ "\n")) ∧
    hasEsc (">>> " ++ printArgs args ++ "\n") = false := by
  refine ⟨?_, ?_, ?_⟩
  · intro h0
    simp [Debug_Log_args, h0]
  · intro hc
    simp [Debug_Log_cat, hc]
  · rw [hasEsc_append, hasEsc_append, hasEsc_printArgs args hargs]
    rfl

/-- Witness for C4: two arguments, `Default` disabled while `Threads` stays
enabled — the category-only variant still prints the exact line. -/
theorem debugLog_plain_format_witness :
    Debug_Log_cat (DisableCategory LogManager.init ELogCategory.Default)
      ELogCategory.Threads ["App closing :)", "42"] =
      some (">>> " ++ printArgs ["App closing :)", "42"] ++ "\n") ∧
    Debug_Log_args LogManager.init ["App closing :)", "42"] =
      some (">>> " ++ printArgs ["App closing :)", "42"] ++ "\n") ∧
    hasEsc (">>> " ++ printArgs ["App closing :)", "42"] ++ "\n") = false :=
  And.intro
    ((debugLog_plain_format
      (DisableCategory LogManager.init ELogCategory.Default)
      ELogCategory.Threads ["App closing :)", "42"] (by decide)).2.1
      (by decide))
    (And.intro
      ((debugLog_plain_format LogManager.init ELogCategory.Threads
        ["App closing :)", "42"] (by decide)).1 (by decide))
      ((debugLog_plain_format LogManager.init ELogCategory.Threads
        ["App closing :)", "42"] (by decide)).2.2))

/-- **C5.** For the color variants, whenever the variant's own effective
category is enabled (`Default` for the category-less variant, the argument
`c` for the category-taking one, with no condition on the other), the
message line is `">>> "`, then exactly the ANSI sequence of the color, then
the concatenated argument texts, then the reset sequence `"\x1b[m"`, then a
newline. -/
theorem debugLog_color_format (m : LogManager) (c : Int) (color : Nat)
    (args : List String) :
    (IsCategoryDisabled m ELogCategory.Default = some false →
      Debug_Log_color m color args =
        some (">>> " ++ Color_To_Ansi color ++ printArgs args ++
          UNIX_COLOR_END_TAG ++ "\n")) ∧
    (IsCategoryDisabled m c = some false →
      Debug_Log_cat_color m c color args =
        some (">>> " ++ Color_To_Ansi color ++ printArgs args ++
          UNIX_COLOR_END_TAG ++ "\n")) := by
  constructor
  · intro h0
    simp [Debug_Log_color, h0]
  · intro hc
    simp [Debug_Log_cat_color, hc]

/-- Witness for C5: red message, `Default` disabled while `Core` stays
enabled — the category+color variant still prints the exact line; on the
fresh registry the `Default`-gated color variant does too. -/
theorem debugLog_color_format_witness :
    Debug_Log_cat_color (DisableCategory LogManager.init ELogCategory.Default)
      ELogCategory.Core EPrintColor.Red ["hello"] =
      some (">>> " ++ Color_To_Ansi EPrintColor.Red ++ printArgs ["hello"] ++
        UNIX_COLOR_END_TAG ++ "\n") ∧
    Debug_Log_color LogManager.init EPrintColor.Red ["hello"] =
      some (">>> " ++ Color_To_Ansi EPrintColor.Red ++ printArgs ["hello"] ++
        UNIX_COLOR_END_TAG ++ "\n") :=
  And.intro
    ((debugLog_color_format
      (DisableCategory LogManager.init ELogCategory.Default) ELogCategory.Core
      EPrintColor.Red ["hello"]).2 (by decide))
    ((debugLog_color_format LogManager.init ELogCategory.Core EPrintColor.Red
      ["hello"]).1 (by decide))

/-- **C6.** For the timestamp-taking variants with their own effective
category enabled: when the flag is true the `std::ctime` text (`now`, a full
line ending in a newline) is written immediately before the `">>> "` message
line; when the flag is false the output is the message line alone, with no
occurrence of the timestamp.  The variants that do not take the flag never
write a timestamp: their whole output is the single line starting with
`">>> "`.  Each conclusion is gated only on the variant's own effective
category (`Default` for the category-less variants, `c` for the others). -/
theorem debugLog_timestamp_format (m : LogManager) (c : Int) (color : Nat)
    (now : String) (args : List String) :
    (IsCategoryDisabled m ELogCategory.Default = some false →
      Debug_Log_color_time m color true now args =
        some (now ++ (">>> " ++ Color_To_Ansi color ++ printArgs args ++
          UNIX_COLOR_END_TAG ++ "\n")) ∧
      Debug_Log_color_time m color false now args =
        some (">>> " ++ Color_To_Ansi color ++ printArgs args ++
          UNIX_COLOR_END_TAG ++ "\n") ∧
      Debug_Log_args m args = some (">>> " ++ printArgs args ++ "\n") ∧
      Debug_Log_color m color args =
        some (">>> " ++ Color_To_Ansi color ++ printArgs args ++
          UNIX_COLOR_END_TAG ++ "\n")) ∧
    (IsCategoryDisabled m c = some false →
      Debug_Log_cat_color_time m c color true now args =
        some (now ++ (">>> " ++ Color_To_Ansi color ++ printArgs args ++
          UNIX_COLOR_END_TAG ++ "\n")) ∧
      Debug_Log_cat_color_time m c color false now args =
        some (">>> " ++ Color_To_Ansi color ++ printArgs args ++
          UNIX_COLOR_END_TAG ++ "\n") ∧
      Debug_Log_cat m c args = some (">>> " ++ printArgs args ++ "\n") ∧
      Debug_Log_cat_color m c color args =
        some (">>> " ++ Color_To_Ansi color ++ printArgs args ++
          UNIX_COLOR_END_TAG ++ "\n")) := by
  constructor
  · intro h0
    refine ⟨?_, ?_, ?_, ?_⟩ <;>
      simp [Debug_Log_color_time, Debug_Log_args, Debug_Log_color, h0,
        String.append_assoc]
  · intro hc
    refine ⟨?_, ?_, ?_, ?_⟩ <;>
      simp [Debug_Log_cat_color_time, Debug_Log_cat, Debug_Log_cat_color, hc,
        String.append_assoc]

/-- Witness for C6: the category-taking variants on the `main.cpp` call
`Debug_Log(Default, Red, true, "Loading next level", 69, 420.69)` in a state
with `Default` the only relevant gate checked via `c = Core` while `Default`
is disabled, and the `Default`-gated variants on the fresh registry, each
with a fixed `ctime` line. -/
theorem debugLog_timestamp_format_witness :
    (Debug_Log_cat_color_time
      (DisableCategory LogManager.init ELogCategory.Default) ELogCategory.Core
      EPrintColor.Red true "Mon Jan  1 00:00:00 2026\n"
      ["Loading next level", "69", "420.69"] =
      some ("Mon Jan  1 00:00:00 2026\n" ++
        (">>> " ++ Color_To_Ansi EPrintColor.Red ++
          printArgs ["Loading next level", "69", "420.69"] ++
          UNIX_COLOR_END_TAG ++ "\n")) ∧
     Debug_Log_cat_color_time
      (DisableCategory LogManager.init ELogCategory.Default) ELogCategory.Core
      EPrintColor.Red false "Mon Jan  1 00:00:00 2026\n"
      ["Loading next level", "69", "420.69"] =
      some (">>> " ++ Color_To_Ansi EPrintColor.Red ++
        printArgs ["Loading next level", "69", "420.69"] ++
        UNIX_COLOR_END_TAG ++ "\n") ∧
     Debug_Log_cat (DisableCategory LogManager.init ELogCategory.Default)
      ELogCategory.Core ["Loading next level", "69", "420.69"] =
      some (">>> " ++ printArgs ["Loading next level", "69", "420.69"] ++
        "\n") ∧
     Debug_Log_cat_color
      (DisableCategory LogManager.init ELogCategory.Default) ELogCategory.Core
      EPrintColor.Red ["Loading next level", "69", "420.69"] =
      some (">>> " ++ Color_To_Ansi EPrintColor.Red ++
        printArgs ["Loading next level", "69", "420.69"] ++
        UNIX_COLOR_END_TAG ++ "\n")) ∧
    (Debug_Log_color_time LogManager.init EPrintColor.Red true
      "Mon Jan  1 00:00:00 2026\n" ["Loading next level", "69", "420.69"] =
      some ("Mon Jan  1 00:00:00 2026\n" ++
        (">>> " ++ Color_To_Ansi EPrintColor.Red ++
          printArgs ["Loading next level", "69", "420.69"] ++
          UNIX_COLOR_END_TAG ++ "\n")) ∧
     Debug_Log_color_time LogManager.init EPrintColor.Red false
      "Mon Jan  1 00:00:00 2026\n" ["Loading next level", "69", "420.69"] =
      some (">>> " ++ Color_To_Ansi EPrintColor.Red ++
        printArgs ["Loading next level", "69", "420.69"] ++
        UNIX_COLOR_END_TAG ++ "\n") ∧
     Debug_Log_args LogManager.init ["Loading next level", "69", "420.69"] =
      some (">>> " ++ printArgs ["Loading next level", "69", "420.69"] ++
        "\n") ∧
     Debug_Log_color LogManager.init EPrintColor.Red
      ["Loading next level", "69", "420.69"] =
      some (">>> " ++ Color_To_Ansi EPrintColor.Red ++
        printArgs ["Loading next level", "69", "420.69"] ++
        UNIX_COLOR_END_TAG ++ "\n")) :=
  And.intro
    ((debugLog_timestamp_format
      (DisableCategory LogManager.init ELogCategory.Default) ELogCategory.Core
      EPrintColor.Red "Mon Jan  1 00:00:00 2026\n"
      ["Loading next level", "69", "420.69"]).2 (by decide))
    ((debugLog_timestamp_format LogManager.init ELogCategory.Core
      EPrintColor.Red "Mon Jan  1 00:00:00 2026\n"
      ["Loading next level", "69", "420.69"]).1 (by decide))

/-- **C8.** In every registry state reachable from construction by
enable/disable calls, the two queries agree complementarily on every
populated category: `IsCategoryEnabled` returns `some b` and
`IsCategoryDisabled` returns `some (!b)`, so exactly one of them is true.
(In this embedding both queries are pure functions of the state, so they
cannot modify the registry.) -/
theorem category_queries_complementary (m : LogManager) (hr : Reachable m)
    (c : Int) (hp : (mapFind m.logCategoryStates c).isSome = true) :
    ∃ b : Bool, IsCategoryEnabled m c = some b ∧
      IsCategoryDisabled m c = some (!b) := by
  obtain ⟨v, hv⟩ := Option.isSome_iff_exists.mp hp
  rcases reachable_values m hr c v hv with h' | h' <;> subst h'
  · exact ⟨true, by simp [IsCategoryEnabled, hv], by simp [IsCategoryDisabled, hv]⟩
  · exact ⟨false, by simp [IsCategoryEnabled, hv], by simp [IsCategoryDisabled, hv]⟩

/-- Witness for C8: after disabling `Component`, the queries on it are
complementary. -/
theorem category_queries_complementary_witness :
    ∃ b : Bool,
      IsCategoryEnabled (DisableCategory LogManager.init ELogCategory.Component)
        ELogCategory.Component = some b ∧
      IsCategoryDisabled (DisableCategory LogManager.init ELogCategory.Component)
        ELogCategory.Component = some (!b) :=
  category_queries_complementary
    (DisableCategory LogManager.init ELogCategory.Component)
    (Reachable.disable LogManager.init ELogCategory.Component Reachable.init)
    ELogCategory.Component (by decide)

/-- **C9.** After `DestroyInstance`, the next `GetInstance` constructs a
fresh `LogManager`, and in it every real category is enabled again —
regardless of the singleton state before the destroy, so in particular a
category disabled in the old instance is re-enabled in the new one. -/
theorem destroy_then_get_fresh (s : SingletonState) (c : Int)
    (h0 : 0 ≤ c) (h6 : c < ELogCategory.AutoCount) :
    (Singleton.GetInstance (Singleton.DestroyInstance s)).1 = LogManager.init ∧
    IsCategoryEnabled (Singleton.GetInstance (Singleton.DestroyInstance s)).1 c
      = some true := by
  constructor
  · rfl
  · show IsCategoryEnabled LogManager.init c = some true
    have h6' : c < 6 := h6
    interval_cases c <;> decide

/-- Witness for C9: `Threads` disabled in the old instance, enabled in the
fresh one. -/
theorem destroy_then_get_fresh_witness :
    (Singleton.GetInstance (Singleton.DestroyInstance
      (some (DisableCategory LogManager.init ELogCategory.Threads)))).1 =
      LogManager.init ∧
    IsCategoryEnabled (Singleton.GetInstance (Singleton.DestroyInstance
      (some (DisableCategory LogManager.init ELogCategory.Threads)))).1
      ELogCategory.Threads = some true :=
  destroy_then_get_fresh
    (some (DisableCategory LogManager.init ELogCategory.Threads))
    ELogCategory.Threads (by decide) (by decide)

/-- **C10.** For a category value outside the populated set (the sentinel
`AutoCount` or any integer beyond the enumeration), the queries on the
fresh registry hit a missing key (`std::map::at` throws, `none`), while
`EnableCategory`/`DisableCategory` silently insert an entry for the value,
after which the queries return normally. -/
theorem out_of_range_category (c : Int) (h : c < 0 ∨ ELogCategory.AutoCount ≤ c) :
    IsCategoryEnabled LogManager.init c = none ∧
    IsCategoryDisabled LogManager.init c = none ∧
    IsCategoryEnabled (EnableCategory LogManager.init c) c = some true ∧
    IsCategoryDisabled (EnableCategory LogManager.init c) c = some false ∧
    IsCategoryDisabled (DisableCategory LogManager.init c) c = some true ∧
    IsCategoryEnabled (DisableCategory LogManager.init c) c = some false := by
  have hbound : c < 0 ∨ (6 : Int) ≤ c := by
    simpa [ELogCategory.AutoCount] using h
  have hl : LogManager.init.logCategoryStates =
      [(0, ELogCategoryState.Enabled), (1, ELogCategoryState.Enabled),
       (2, ELogCategoryState.Enabled), (3, ELogCategoryState.Enabled),
       (4, ELogCategoryState.Enabled), (5, ELogCategoryState.Enabled)] := by
    decide
  have hnone : mapFind LogManager.init.logCategoryStates c = none := by
    apply mapFind_eq_none_of_forall_ne
    intro p hp
    obtain ⟨k, v⟩ := p
    rw [hl] at hp
    simp only [List.mem_cons, List.not_mem_nil, or_false, Prod.mk.injEq] at hp
    show k ≠ c
    intro hq
    subst hq
    rcases hp with ⟨h1, _⟩ | ⟨h1, _⟩ | ⟨h1, _⟩ | ⟨h1, _⟩ | ⟨h1, _⟩ | ⟨h1, _⟩ <;>
      omega
  refine ⟨?_, ?_, ?_, ?_, ?_, ?_⟩
  · simp [IsCategoryEnabled, hnone]
  · simp [IsCategoryDisabled, hnone]
  · simp [IsCategoryEnabled, EnableCategory, mapFind_mapInsert_self]
  · simp [IsCategoryDisabled, EnableCategory, mapFind_mapInsert_self]
  · simp [IsCategoryDisabled, DisableCategory, mapFind_mapInsert_self]
  · simp [IsCategoryEnabled, DisableCategory, mapFind_mapInsert_self]

/-- Witness for C10 at the sentinel value `AutoCount` (6). -/
theorem out_of_range_category_witness :
    IsCategoryEnabled LogManager.init ELogCategory.AutoCount = none ∧
    IsCategoryDisabled LogManager.init ELogCategory.AutoCount = none ∧
    IsCategoryEnabled (EnableCategory LogManager.init ELogCategory.AutoCount)
      ELogCategory.AutoCount = some true ∧
    IsCategoryDisabled (EnableCategory LogManager.init ELogCategory.AutoCount)
      ELogCategory.AutoCount = some false ∧
    IsCategoryDisabled (DisableCategory LogManager.init ELogCategory.AutoCount)
      ELogCategory.AutoCount = some true ∧
    IsCategoryEnabled (DisableCategory LogManager.init ELogCategory.AutoCount)
      ELogCategory.AutoCount = some false :=
  out_of_range_category ELogCategory.AutoCount (Or.inr (by decide))
